import Mathlib

/-!
# Speech Quality Analysis Engine — verification development

Shallow embedding of the deterministic speech-quality analysis engine
(pace, pauses, fillers, voice perturbation, composite quality score,
and the orchestrator), together with proofs of its specified
properties.  Real-valued signals are modelled by `ℚ`; a possibly
non-finite numeric frame (e.g. a NaN pitch sample) is modelled by
`Option ℚ`, with `none` standing for a non-finite value.
-/

set_option maxRecDepth 100000

namespace SpeechAnalysis

/-- A numeric sample frame: `none` models a non-finite value (NaN/Inf). -/
abbrev Sample := Option ℚ

/-- A contiguous span of transcribed speech. -/
structure Segment where
  start : ℚ
  «end» : ℚ
  text : String
deriving DecidableEq

/-- A detected silent gap between two consecutive speech segments. -/
structure Pause where
  start : ℚ
  «end» : ℚ
  duration : ℚ
deriving DecidableEq

/-- Modelled from the spec: the Pace Calculator `calculateWPM` (the
implementation of `SpeechAnalysisService` is absent from the sources;
only its test suite is present).  Zero duration returns 0, otherwise
`words / (durationSeconds / 60)` with no rounding. -/
def calculateWPM (words : ℕ) (durationSeconds : ℚ) : ℚ :=
  if durationSeconds = 0 then 0 else (words : ℚ) / (durationSeconds / 60)

/-- Comparison of segments by start time, used for the internal sort of
the Pause Detector. -/
def segBefore (a b : Segment) : Prop := a.start ≤ b.start

instance : DecidableRel segBefore := fun a b => inferInstanceAs (Decidable (a.start ≤ b.start))

/-- Scan a start-time-ordered segment list; for each consecutive pair
emit a pause exactly when the gap reaches the threshold. -/
def pairPauses (thresholdSeconds : ℚ) : List Segment → List Pause
  | a :: b :: rest =>
    (if thresholdSeconds ≤ b.start - a.«end» then
      [⟨a.«end», b.start, b.start - a.«end»⟩] else [])
      ++ pairPauses thresholdSeconds (b :: rest)
  | _ => []

/-- Modelled from the spec: the Pause Detector `detectPauses` (the
implementation of `SpeechAnalysisService` is absent from the sources).
Segments are sorted by start time internally, then consecutive gaps
`nextStart - prevEnd` at or above the threshold are emitted. -/
def detectPauses (segments : List Segment) (thresholdSeconds : ℚ) : List Pause :=
  pairPauses thresholdSeconds (segments.insertionSort segBefore)

/-- The pause emitted (or not) by one consecutive pair of segments. -/
def pairPause (thresholdSeconds : ℚ) (p : Segment × Segment) : Option Pause :=
  if thresholdSeconds ≤ p.2.start - p.1.«end» then
    some ⟨p.1.«end», p.2.start, p.2.start - p.1.«end»⟩ else none

/-- Punctuation characters treated as token separators by the filler scan. -/
def isPunctChar (c : Char) : Bool :=
  c = ',' || c = '.' || c = '?' || c = '!' || c = ';' || c = ':'

/-- Lower-case the text and replace punctuation by spaces. -/
def normalizeText (text : String) : List Char :=
  text.toList.map (fun c => let d := c.toLower; if isPunctChar d then ' ' else d)

/-- Split a character list into space-separated words (the accumulator
holds the current word reversed). -/
def splitWords : List Char → List Char → List String
  | [], acc => if acc.isEmpty then [] else [String.mk acc.reverse]
  | c :: cs, acc =>
    if c = ' ' then
      if acc.isEmpty then splitWords cs [] else String.mk acc.reverse :: splitWords cs []
    else splitWords cs (c :: acc)

/-- Modelled from the spec: word tokenization of the input text —
lower-cased, punctuation-stripped, space-split. -/
def tokenize (text : String) : List String :=
  splitWords (normalizeText text) []

/-- Modelled from the spec: the filler lexicon configuration value, as a
set of word-tokenized phrases (single words and multi-word phrases,
lower-cased canonical form). -/
def fillerLexicon : List (List String) :=
  [tokenize "i think that", tokenize "i think", tokenize "i mean",
   tokenize "you know", tokenize "um", tokenize "uh", tokenize "like"]

/-- Does the phrase match, token for token, at the head of the token list? -/
def phraseMatches : List String → List String → Bool
  | [], _ => true
  | _ :: _, [] => false
  | p :: ps, t :: ts => p == t && phraseMatches ps ts

/-- Pick a longest element of a list of candidate phrases. -/
def pickLongest : List (List String) → Option (List String)
  | [] => none
  | p :: ps =>
    match pickLongest ps with
    | none => some p
    | some q => if q.length ≤ p.length then some p else some q

/-- The longest nonempty lexicon phrase matching at the head of the
token list, if any (longest-match-first scan of the spec). -/
def longestMatch (lex : List (List String)) (ts : List String) : Option (List String) :=
  pickLongest (lex.filter (fun p => !p.isEmpty && phraseMatches p ts))

/-- Greedy longest-match scan over the token list; `fuel` bounds the
recursion (one token is consumed per step, so `ts.length` suffices). -/
def scanFillers (lex : List (List String)) : ℕ → List String → List (List String)
  | 0, _ => []
  | _, [] => []
  | Nat.succ fuel, t :: ts =>
    match longestMatch lex (t :: ts) with
    | some p => p :: scanFillers lex fuel (List.drop (p.length - 1) ts)
    | none => scanFillers lex fuel ts

/-- Join the words of a phrase back into its canonical string form. -/
def joinWords : List String → String
  | [] => ""
  | [w] => w
  | w :: ws => w ++ " " ++ joinWords ws

/-- Modelled from the spec: the Filler Detector `detectFillers` over an
explicit lexicon (the implementation of `SpeechAnalysisService` is
absent from the sources).  Case-insensitive, punctuation-tolerant,
longest-match-first; each distinct filler is reported once, in
lower-cased canonical form. -/
def detectFillersWith (lex : List (List String)) (text : String) : List String :=
  ((scanFillers lex (tokenize text).length (tokenize text)).map joinWords).dedup

/-- The filler detector as invoked by the orchestrator: fixed built-in
lexicon, no caller-supplied configuration. -/
def detectFillers (text : String) : List String :=
  detectFillersWith fillerLexicon text

/-- The valid values of a sample sequence: non-finite frames (`none`)
and non-positive values are filtered out. -/
def validValues (samples : List Sample) : List ℚ :=
  samples.filterMap (fun s =>
    match s with
    | some x => if 0 < x then some x else none
    | none => none)

/-- Median of a list of rationals: sort ascending and take the middle
element (average of the two middles for even length); 0 when empty. -/
def median (l : List ℚ) : ℚ :=
  let s := l.insertionSort (· ≤ ·)
  if s.length = 0 then 0
  else if s.length % 2 = 1 then s.getD (s.length / 2) 0
  else (s.getD (s.length / 2 - 1) 0 + s.getD (s.length / 2) 0) / 2

/-- Modelled from the spec: the F0 estimator `calculateF0` (the
implementation of `SpeechAnalysisService` is absent from the sources).
Invalid frames are filtered, then the median of the remaining values is
returned (0 when none remain). -/
def calculateF0 (pitchValues : List Sample) : ℚ :=
  median (validValues pitchValues)

/-- Absolute differences of consecutive values. -/
def absDiffs (l : List ℚ) : List ℚ :=
  (l.zip l.tail).map (fun p => |p.1 - p.2|)

/-- Relative average perturbation: mean absolute consecutive difference
divided by the mean value; 0 when fewer than 3 values are available. -/
def relativePerturbation (l : List ℚ) : ℚ :=
  if l.length < 3 then 0
  else ((absDiffs l).sum / ((absDiffs l).length : ℚ)) / (l.sum / (l.length : ℚ))

/-- Modelled from the spec: `calculateJitter` — relative average
perturbation of the valid pitch values. -/
def calculateJitter (pitchValues : List Sample) : ℚ :=
  relativePerturbation (validValues pitchValues)

/-- Modelled from the spec: `calculateShimmer` — the same algorithm
applied to the valid amplitude values. -/
def calculateShimmer (amplitudeValues : List Sample) : ℚ :=
  relativePerturbation (validValues amplitudeValues)

/-- The intermediate factor summary consumed by the score aggregator. -/
structure QualityFactors where
  wpm : ℚ
  pauseCount : ℕ
  fillerCount : ℕ
  jitter : ℚ
  shimmer : ℚ
deriving DecidableEq

/-- Pace penalty: distance of `wpm` from the target band [120, 180]
around 150 wpm; no penalty inside the band. -/
def pacePenalty (wpm : ℚ) : ℚ :=
  if wpm < 120 then 120 - wpm else if 180 < wpm then wpm - 180 else 0

/-- Pause penalty: a small number of pauses (≤ 3) is neutral; each
excess pause costs 2 points. -/
def pausePenalty (pauseCount : ℕ) : ℚ :=
  if pauseCount ≤ 3 then 0 else 2 * ((pauseCount : ℚ) - 3)

/-- The unclamped score: baseline 100 minus the independent monotone
penalties for fillers, jitter, shimmer, pace, and pauses. -/
def rawQualityScore (f : QualityFactors) : ℚ :=
  100 - 2 * (f.fillerCount : ℚ) - 100 * f.jitter - 100 * f.shimmer
    - pacePenalty f.wpm - pausePenalty f.pauseCount

/-- Clamp a value to the interval [0, 100]. -/
def clampScore (x : ℚ) : ℚ :=
  if x < 0 then 0 else if 100 < x then 100 else x

/-- Modelled from the spec: the Quality Score Aggregator
`calculateQualityScore` (the implementation of
`SpeechAnalysisService` is absent from the sources).  Baseline 100,
monotone penalties, final clamp to [0, 100]; the all-zero factor record
scores 0 because a zero wpm alone carries a 120-point pace penalty. -/
def calculateQualityScore (f : QualityFactors) : ℚ :=
  clampScore (rawQualityScore f)

/-- The raw per-session signals consumed by the orchestrator. -/
structure AnalysisData where
  words : ℕ
  durationSeconds : ℚ
  segments : List Segment
  text : String
  pitchValues : List Sample
  amplitudeValues : List Sample

/-- The engine's sole output record. -/
structure AnalysisResult where
  wpm : ℚ
  pauses : List Pause
  fillers : List String
  f0 : ℚ
  jitter : ℚ
  shimmer : ℚ
  qualityScore : ℚ
deriving DecidableEq

/-- The fixed built-in pause threshold used by the orchestrator (the
caller supplies no threshold). -/
def analysisPauseThreshold : ℚ := 1/2

/-- Modelled from the spec: the Analysis Orchestrator
`analyzeSpeechQuality` (the implementation of `SpeechAnalysisService`
is absent from the sources).  Invokes the five calculators on the
corresponding slices of the input and assembles the result record; it
accepts no pause threshold and no filler lexicon from the caller. -/
def analyzeSpeechQuality (d : AnalysisData) : AnalysisResult :=
  let wpm := calculateWPM d.words d.durationSeconds
  let pauses := detectPauses d.segments analysisPauseThreshold
  let fillers := detectFillers d.text
  let f0 := calculateF0 d.pitchValues
  let jitter := calculateJitter d.pitchValues
  let shimmer := calculateShimmer d.amplitudeValues
  let qualityScore := calculateQualityScore
    ⟨wpm, pauses.length, fillers.length, jitter, shimmer⟩
  ⟨wpm, pauses, fillers, f0, jitter, shimmer, qualityScore⟩

/-- The three-segment example from the test suite. -/
def exampleSegments : List Segment :=
  [⟨0, 2, "Hello world"⟩, ⟨3, 5, "How are you"⟩, ⟨7, 9, "I am fine"⟩]

/-- The six-sample pitch list of the test suite, with one unvoiced frame
(0), one negative frame and one NaN frame. -/
def examplePitchMixed : List Sample :=
  [some 220, some 0, some 440, some (-1), some 880, none]

/-- The eight-sample pitch list of the test suite. -/
def examplePitch : List Sample :=
  [some 220, some 225, some 218, some 222, some 220, some 228, some 220, some 221]

/-- The eight-sample amplitude list of the test suite
(0.5, 0.52, 0.48, 0.51, 0.49, 0.53, 0.5, 0.52). -/
def exampleAmplitude : List Sample :=
  [some (1/2), some (13/25), some (12/25), some (51/100),
   some (49/100), some (53/100), some (1/2), some (13/25)]

theorem pairPauses_eq_filterMap (th : ℚ) :
    ∀ l : List Segment, pairPauses th l = (l.zip l.tail).filterMap (pairPause th)
  | [] => rfl
  | [a] => rfl
  | a :: b :: rest => by
    rw [pairPauses, pairPauses_eq_filterMap th (b :: rest)]
    simp only [List.tail_cons, List.zip_cons_cons, List.filterMap_cons, pairPause]
    by_cases h : th ≤ b.start - a.«end» <;> simp [h]

/-! ## Properties of the pace calculator and pause detector -/

/-- C5: for every non-negative integer `words` and positive duration,
`calculateWPM` equals `words / (durationSeconds / 60)` exactly, and a
zero duration yields 0; the function is total, so no input raises. -/
theorem calculateWPM_spec :
    (∀ (words : ℕ) (d : ℚ), 0 < d → calculateWPM words d = (words : ℚ) / (d / 60))
    ∧ ∀ words : ℕ, calculateWPM words 0 = 0 := by
  constructor
  · intro w d hd
    simp [calculateWPM, ne_of_gt hd]
  · intro w
    simp [calculateWPM]

/-- Witness for `calculateWPM_spec` at words 150, duration 60. -/
theorem calculateWPM_spec_witness :
    calculateWPM 150 60 = (150 : ℚ) / (60 / 60) ∧ calculateWPM 50 0 = 0 :=
  ⟨calculateWPM_spec.1 150 60 (by norm_num), calculateWPM_spec.2 50⟩

/-- C4: on a start-time-ordered segment list, `detectPauses` emits, for
each consecutive pair, exactly the pause `(prevEnd, nextStart, gap)`
when `gap ≥ threshold` and nothing otherwise; zero or one segment
yields `[]`; on `[(0,2),(3,5),(7,9)]` with threshold `0.5` it returns
`[(2,3,1),(5,7,2)]`. -/
theorem detectPauses_spec :
    (∀ (segs : List Segment) (th : ℚ),
      detectPauses segs th
        = ((segs.insertionSort segBefore).zip (segs.insertionSort segBefore).tail).filterMap
            (pairPause th))
    ∧ (∀ (segs : List Segment) (th : ℚ), List.Sorted segBefore segs →
      detectPauses segs th = (segs.zip segs.tail).filterMap (pairPause th))
    ∧ (∀ (segs : List Segment) (th : ℚ), segs.length ≤ 1 → detectPauses segs th = [])
    ∧ detectPauses exampleSegments (1/2) = [⟨2, 3, 1⟩, ⟨5, 7, 2⟩] := by
  refine ⟨?_, ?_, ?_, ?_⟩
  · intro segs th
    rw [detectPauses, pairPauses_eq_filterMap]
  · intro segs th hs
    rw [detectPauses, hs.insertionSort_eq, pairPauses_eq_filterMap]
  · intro segs th hlen
    match segs with
    | [] => rfl
    | [a] => rfl
    | a :: b :: rest => simp at hlen
  · with_unfolding_all decide

/-- Witness for `detectPauses_spec` on the sorted three-segment example. -/
theorem detectPauses_spec_witness :
    detectPauses exampleSegments (1/2)
      = (exampleSegments.zip exampleSegments.tail).filterMap (pairPause (1/2))
    ∧ detectPauses [] (1/2) = [] :=
  ⟨detectPauses_spec.2.1 exampleSegments (1/2) (by with_unfolding_all decide),
   detectPauses_spec.2.2.1 [] (1/2) (by decide)⟩

/-! ## Properties of the quality score aggregator -/

theorem pacePenalty_nonneg (wpm : ℚ) : 0 ≤ pacePenalty wpm := by
  unfold pacePenalty
  split
  · linarith
  · split
    · linarith
    · linarith

theorem pausePenalty_nonneg (n : ℕ) : 0 ≤ pausePenalty n := by
  unfold pausePenalty
  split
  · linarith
  · have : (3 : ℚ) < (n : ℚ) := by
      exact_mod_cast Nat.lt_of_not_le (by assumption)
    linarith

theorem clampScore_nonneg (x : ℚ) : 0 ≤ clampScore x := by
  unfold clampScore
  split
  · linarith
  · split
    · linarith
    · linarith

theorem clampScore_le (x : ℚ) : clampScore x ≤ 100 := by
  unfold clampScore
  split
  · linarith
  · split
    · linarith
    · linarith

/-- C3: the composite quality score always lies in [0, 100]. -/
theorem calculateQualityScore_bounds (f : QualityFactors) :
    0 ≤ calculateQualityScore f ∧ calculateQualityScore f ≤ 100 :=
  ⟨clampScore_nonneg _, clampScore_le _⟩

theorem clampScore_mono {a b : ℚ} (h : a ≤ b) : clampScore a ≤ clampScore b := by
  unfold clampScore
  rcases lt_or_le a 0 with ha | ha <;> rcases lt_or_le b 0 with hb | hb <;>
    rcases lt_or_le 100 a with ha2 | ha2 <;> rcases lt_or_le 100 b with hb2 | hb2 <;>
    simp [ha, hb, ha2, hb2, not_lt.mpr, le_refl] <;> linarith

theorem clampScore_lt {a b : ℚ} (hab : a < b) (hb : b ≤ 100)
    (ha : 0 < clampScore a) : clampScore a < clampScore b := by
  unfold clampScore at ha ⊢
  rcases lt_or_le a 0 with h0 | h0
  · simp [h0] at ha
  · have h100 : ¬ (100 : ℚ) < a := by linarith
    have hb0 : ¬ b < 0 := by linarith
    have hb100 : ¬ (100 : ℚ) < b := not_lt.mpr hb
    simp [not_lt.mpr h0, h100, hb0, hb100]
    exact hab

theorem rawQualityScore_le_100 (f : QualityFactors)
    (hj : 0 ≤ f.jitter) (hs : 0 ≤ f.shimmer) : rawQualityScore f ≤ 100 := by
  have h1 := pacePenalty_nonneg f.wpm
  have h2 := pausePenalty_nonneg f.pauseCount
  have h3 : (0 : ℚ) ≤ (f.fillerCount : ℚ) := Nat.cast_nonneg _
  unfold rawQualityScore
  linarith

/-- C2 counterexample: the quality score is NOT strictly decreasing in
`fillerCount` everywhere — once the penalty saturates the lower clamp,
an otherwise-identical input with strictly more fillers gets the same
score 0 rather than a strictly lower one. -/
theorem calculateQualityScore_not_strictly_decreasing :
    ¬ (calculateQualityScore ⟨150, 1, 61, 0, 0⟩
        < calculateQualityScore ⟨150, 1, 60, 0, 0⟩) := by
  with_unfolding_all decide

/-- C2 (amended): the quality score is monotonically non-increasing in
each of `fillerCount`, `jitter` and `shimmer` holding the other factors
fixed, and strictly decreasing in each as long as the jitter/shimmer
factors are non-negative and the score of the larger-factor input has
not been clamped to 0; the near-optimal factors
`(wpm 150, 1 pause, 0 fillers, jitter 0.01, shimmer 0.02)` score
strictly above 80. -/
theorem calculateQualityScore_monotone :
    (∀ (f : QualityFactors) (n : ℕ), f.fillerCount ≤ n →
      calculateQualityScore ⟨f.wpm, f.pauseCount, n, f.jitter, f.shimmer⟩
        ≤ calculateQualityScore f)
    ∧ (∀ (f : QualityFactors) (j : ℚ), f.jitter ≤ j →
      calculateQualityScore ⟨f.wpm, f.pauseCount, f.fillerCount, j, f.shimmer⟩
        ≤ calculateQualityScore f)
    ∧ (∀ (f : QualityFactors) (s : ℚ), f.shimmer ≤ s →
      calculateQualityScore ⟨f.wpm, f.pauseCount, f.fillerCount, f.jitter, s⟩
        ≤ calculateQualityScore f)
    ∧ (∀ (f : QualityFactors) (n : ℕ), 0 ≤ f.jitter → 0 ≤ f.shimmer →
        f.fillerCount < n →
        0 < calculateQualityScore ⟨f.wpm, f.pauseCount, n, f.jitter, f.shimmer⟩ →
      calculateQualityScore ⟨f.wpm, f.pauseCount, n, f.jitter, f.shimmer⟩
        < calculateQualityScore f)
    ∧ (∀ (f : QualityFactors) (j : ℚ), 0 ≤ f.jitter → 0 ≤ f.shimmer →
        f.jitter < j →
        0 < calculateQualityScore ⟨f.wpm, f.pauseCount, f.fillerCount, j, f.shimmer⟩ →
      calculateQualityScore ⟨f.wpm, f.pauseCount, f.fillerCount, j, f.shimmer⟩
        < calculateQualityScore f)
    ∧ (∀ (f : QualityFactors) (s : ℚ), 0 ≤ f.jitter → 0 ≤ f.shimmer →
        f.shimmer < s →
        0 < calculateQualityScore ⟨f.wpm, f.pauseCount, f.fillerCount, f.jitter, s⟩ →
      calculateQualityScore ⟨f.wpm, f.pauseCount, f.fillerCount, f.jitter, s⟩
        < calculateQualityScore f)
    ∧ 80 < calculateQualityScore ⟨150, 1, 0, 1/100, 1/50⟩ := by
  have hraw : ∀ (f : QualityFactors) (g : QualityFactors),
      g.wpm = f.wpm → g.pauseCount = f.pauseCount →
      rawQualityScore f - rawQualityScore g
        = 2 * ((g.fillerCount : ℚ) - (f.fillerCount : ℚ))
          + 100 * (g.jitter - f.jitter) + 100 * (g.shimmer - f.shimmer) := by
    intro f g hw hp
    unfold rawQualityScore
    rw [hw, hp]
    ring
  refine ⟨?_, ?_, ?_, ?_, ?_, ?_, by with_unfolding_all decide⟩
  · intro f n hn
    apply clampScore_mono
    have h := hraw f ⟨f.wpm, f.pauseCount, n, f.jitter, f.shimmer⟩ rfl rfl
    have hcast : (f.fillerCount : ℚ) ≤ (n : ℚ) := by exact_mod_cast hn
    simp only at h
    linarith
  · intro f j hj
    apply clampScore_mono
    have h := hraw f ⟨f.wpm, f.pauseCount, f.fillerCount, j, f.shimmer⟩ rfl rfl
    simp only at h
    linarith
  · intro f s hs
    apply clampScore_mono
    have h := hraw f ⟨f.wpm, f.pauseCount, f.fillerCount, f.jitter, s⟩ rfl rfl
    simp only at h
    linarith
  · intro f n hj hs hn hpos
    apply clampScore_lt _ (rawQualityScore_le_100 f hj hs) hpos
    have h := hraw f ⟨f.wpm, f.pauseCount, n, f.jitter, f.shimmer⟩ rfl rfl
    have hcast : (f.fillerCount : ℚ) < (n : ℚ) := by exact_mod_cast hn
    simp only at h
    linarith
  · intro f j hj hs hjlt hpos
    apply clampScore_lt _ (rawQualityScore_le_100 f hj hs) hpos
    have h := hraw f ⟨f.wpm, f.pauseCount, f.fillerCount, j, f.shimmer⟩ rfl rfl
    simp only at h
    linarith
  · intro f s hj hs hslt hpos
    apply clampScore_lt _ (rawQualityScore_le_100 f hj hs) hpos
    have h := hraw f ⟨f.wpm, f.pauseCount, f.fillerCount, f.jitter, s⟩ rfl rfl
    simp only at h
    linarith

/-- Witness for `calculateQualityScore_monotone`: the strict filler
clause at the test pair (1 vs 10 fillers) and the non-strict jitter
clause at the test pair (0.05 vs 0.2). -/
theorem calculateQualityScore_monotone_witness :
    calculateQualityScore ⟨150, 2, 10, 1/20, 2/25⟩
      < calculateQualityScore ⟨150, 2, 1, 1/20, 2/25⟩
    ∧ calculateQualityScore ⟨150, 2, 3, 1/5, 2/25⟩
      ≤ calculateQualityScore ⟨150, 2, 3, 1/20, 2/25⟩ :=
  ⟨calculateQualityScore_monotone.2.2.2.1 ⟨150, 2, 1, 1/20, 2/25⟩ 10
      (by norm_num) (by norm_num) (by norm_num) (by with_unfolding_all decide),
   calculateQualityScore_monotone.2.1 ⟨150, 2, 3, 1/20, 2/25⟩ (1/5) (by norm_num)⟩

/-! ## Properties of the orchestrator -/

/-- C1: on the all-zero/empty input the orchestrator raises nothing (it
is a total function) and returns exactly the all-zero result record. -/
theorem analyzeSpeechQuality_all_zero :
    analyzeSpeechQuality ⟨0, 0, [], "", [], []⟩ = ⟨0, [], [], 0, 0, 0, 0⟩ := by
  with_unfolding_all decide

/-! ## Properties of the voice perturbation estimator -/

theorem validValues_pos (vals : List Sample) : ∀ x ∈ validValues vals, 0 < x := by
  intro x hx
  simp only [validValues, List.mem_filterMap] at hx
  obtain ⟨s, _, hs⟩ := hx
  match s with
  | none => simp at hs
  | some y =>
    by_cases hy : 0 < y
    · simp only [hy, if_true] at hs
      rw [← Option.some_inj.mp hs]
      exact hy
    · simp [hy] at hs

theorem median_nil : median [] = 0 := rfl

theorem median_singleton (x : ℚ) : median [x] = x := by
  simp [median, List.insertionSort, List.orderedInsert]

/-- C6: `calculateF0` keeps only finite positive samples, returns 0
when none remain, the sole survivor when one remains, and the median of
the survivors otherwise; concrete cases from the test suite. -/
theorem calculateF0_spec :
    (∀ vals : List Sample, ∀ x ∈ validValues vals, 0 < x)
    ∧ (∀ vals : List Sample, validValues vals = [] → calculateF0 vals = 0)
    ∧ (∀ (vals : List Sample) (x : ℚ), validValues vals = [x] → calculateF0 vals = x)
    ∧ (∀ vals : List Sample, calculateF0 vals = median (validValues vals))
    ∧ calculateF0 [] = 0
    ∧ calculateF0 [some 440] = 440
    ∧ validValues examplePitchMixed = [220, 440, 880]
    ∧ 0 < calculateF0 examplePitchMixed
    ∧ calculateF0 examplePitchMixed < 1000 := by
  refine ⟨validValues_pos, ?_, ?_, fun _ => rfl, ?_, ?_, ?_, ?_, ?_⟩
  · intro vals h
    rw [calculateF0, h, median_nil]
  · intro vals x h
    rw [calculateF0, h, median_singleton]
  · rfl
  · with_unfolding_all decide
  · with_unfolding_all decide
  · with_unfolding_all decide
  · with_unfolding_all decide

/-- Witness for `calculateF0_spec`: the empty-survivor clause at `[some 0]`
and the single-survivor clause at `[some 440, none]`. -/
theorem calculateF0_spec_witness :
    calculateF0 [some 0] = 0 ∧ calculateF0 [some 440, none] = 440 :=
  ⟨calculateF0_spec.2.1 [some 0] (by with_unfolding_all decide),
   calculateF0_spec.2.2.1 [some 440, none] 440 (by with_unfolding_all decide)⟩

theorem absDiffs_cons_cons (x y : ℚ) (t : List ℚ) :
    absDiffs (x :: y :: t) = |x - y| :: absDiffs (y :: t) := by
  simp [absDiffs]

theorem absDiffs_sum_nonneg (l : List ℚ) : 0 ≤ (absDiffs l).sum := by
  apply List.sum_nonneg
  intro x hx
  simp only [absDiffs, List.mem_map] at hx
  obtain ⟨p, _, hp⟩ := hx
  rw [← hp]
  exact abs_nonneg _

theorem chain_of_absDiffs_sum_eq_zero :
    ∀ l : List ℚ, (absDiffs l).sum = 0 → l.Chain' (· = ·)
  | [], _ => List.chain'_nil
  | [_], _ => List.chain'_singleton _
  | x :: y :: t, h => by
    rw [absDiffs_cons_cons, List.sum_cons] at h
    have h1 : 0 ≤ |x - y| := abs_nonneg _
    have h2 : 0 ≤ (absDiffs (y :: t)).sum := absDiffs_sum_nonneg _
    have hxy : x = y := by
      have : |x - y| = 0 := by linarith
      have := abs_eq_zero.mp this
      linarith
    exact List.chain'_cons.mpr
      ⟨hxy, chain_of_absDiffs_sum_eq_zero (y :: t) (by linarith)⟩

theorem eq_head_of_chain :
    ∀ (x : ℚ) (t : List ℚ), (x :: t).Chain' (· = ·) → ∀ a ∈ x :: t, a = x
  | _, [], _, a, ha => by simpa using ha
  | x, y :: t, h, a, ha => by
    rw [List.chain'_cons] at h
    rcases List.mem_cons.mp ha with rfl | ha'
    · rfl
    · rw [eq_head_of_chain y t h.2 a ha', ← h.1]

theorem absDiffs_sum_pos (l : List ℚ) (a b : ℚ) (ha : a ∈ l) (hb : b ∈ l)
    (hab : a ≠ b) : 0 < (absDiffs l).sum := by
  rcases lt_or_eq_of_le (absDiffs_sum_nonneg l) with h | h
  · exact h
  · exfalso
    have hchain := chain_of_absDiffs_sum_eq_zero l h.symm
    match l, ha, hb, hchain with
    | x :: t, ha, hb, hchain =>
      exact hab ((eq_head_of_chain x t hchain a ha).trans
        (eq_head_of_chain x t hchain b hb).symm)

theorem absDiffs_sum_of_const (c : ℚ) :
    ∀ l : List ℚ, (∀ x ∈ l, x = c) → (absDiffs l).sum = 0
  | [], _ => rfl
  | [_], _ => rfl
  | x :: y :: t, h => by
    rw [absDiffs_cons_cons, List.sum_cons,
      absDiffs_sum_of_const c (y :: t) (fun z hz => h z (List.mem_cons_of_mem _ hz))]
    have hx : x = c := h x (by simp)
    have hy : y = c := h y (by simp)
    rw [hx, hy]
    simp

theorem length_absDiffs (l : List ℚ) : (absDiffs l).length = l.length - 1 := by
  simp [absDiffs, Nat.min_eq_right (Nat.sub_le _ _)]

theorem relativePerturbation_of_short (l : List ℚ) (h : l.length < 3) :
    relativePerturbation l = 0 := by
  simp [relativePerturbation, h]

theorem relativePerturbation_of_const (l : List ℚ) (c : ℚ) (h : ∀ x ∈ l, x = c) :
    relativePerturbation l = 0 := by
  unfold relativePerturbation
  split
  · rfl
  · rw [absDiffs_sum_of_const c l h]
    simp

theorem relativePerturbation_pos (l : List ℚ) (h3 : 3 ≤ l.length)
    (hpos : ∀ x ∈ l, 0 < x) (a b : ℚ) (ha : a ∈ l) (hb : b ∈ l) (hab : a ≠ b) :
    0 < relativePerturbation l := by
  unfold relativePerturbation
  rw [if_neg (not_lt.mpr h3)]
  have hlen : 0 < ((absDiffs l).length : ℚ) := by
    rw [length_absDiffs]
    have : 2 ≤ l.length - 1 := by omega
    exact_mod_cast Nat.lt_of_lt_of_le (by norm_num) this
  have hlen2 : 0 < (l.length : ℚ) := by
    exact_mod_cast Nat.lt_of_lt_of_le (by norm_num) h3
  have hne : l ≠ [] := by
    intro h
    rw [h] at h3
    simp at h3
  exact div_pos (div_pos (absDiffs_sum_pos l a b ha hb hab) hlen)
    (div_pos (List.sum_pos l hpos hne) hlen2)

/-- C7 counterexample: the varying valid input `[1, 100, 1]` has three
valid values, yet its jitter is strictly greater than 1 (it equals
99/34), so the claimed universal strict upper bound 1 fails. -/
theorem calculateJitter_can_exceed_one :
    (validValues [some 1, some 100, some 1]).length = 3
    ∧ (1 : ℚ) < calculateJitter [some 1, some 100, some 1] := by
  constructor
  · with_unfolding_all decide
  · with_unfolding_all decide

/-- C7 (amended): jitter and shimmer are exactly 0 when fewer than 3
valid values remain and for constant valid input; for varying valid
input of length ≥ 3 both are strictly positive and equal the average
absolute consecutive difference divided by the mean of the valid
values; the strict upper bound 1 holds for the representative test
inputs (though not universally — see the counterexample). -/
theorem perturbation_spec :
    (∀ vals : List Sample, (validValues vals).length < 3 →
      calculateJitter vals = 0 ∧ calculateShimmer vals = 0)
    ∧ (∀ (vals : List Sample) (c : ℚ), (∀ x ∈ validValues vals, x = c) →
      calculateJitter vals = 0 ∧ calculateShimmer vals = 0)
    ∧ (∀ vals : List Sample, 3 ≤ (validValues vals).length →
        (∃ a ∈ validValues vals, ∃ b ∈ validValues vals, a ≠ b) →
      0 < calculateJitter vals ∧ 0 < calculateShimmer vals)
    ∧ (∀ vals : List Sample, 3 ≤ (validValues vals).length →
      calculateJitter vals
        = ((absDiffs (validValues vals)).sum / ((absDiffs (validValues vals)).length : ℚ))
          / ((validValues vals).sum / ((validValues vals).length : ℚ)))
    ∧ (0 < calculateJitter examplePitch ∧ calculateJitter examplePitch < 1)
    ∧ (0 < calculateShimmer exampleAmplitude ∧ calculateShimmer exampleAmplitude < 1) := by
  refine ⟨?_, ?_, ?_, ?_, ?_, ?_⟩
  · intro vals h
    exact ⟨relativePerturbation_of_short _ h, relativePerturbation_of_short _ h⟩
  · intro vals c h
    exact ⟨relativePerturbation_of_const _ c h, relativePerturbation_of_const _ c h⟩
  · intro vals h3 ⟨a, ha, b, hb, hab⟩
    exact ⟨relativePerturbation_pos _ h3 (validValues_pos vals) a b ha hb hab,
      relativePerturbation_pos _ h3 (validValues_pos vals) a b ha hb hab⟩
  · intro vals h3
    rw [calculateJitter, relativePerturbation, if_neg (not_lt.mpr h3)]
  · constructor
    · with_unfolding_all decide
    · with_unfolding_all decide
  · constructor
    · with_unfolding_all decide
    · with_unfolding_all decide

/-- Witness for `perturbation_spec`: the short-input clause on a
two-sample list, the constant clause on five constant samples, and the
positivity clause on the test pitch list. -/
theorem perturbation_spec_witness :
    (calculateJitter [some 220, some 225] = 0
      ∧ calculateShimmer [some 220, some 225] = 0)
    ∧ (calculateJitter [some 220, some 220, some 220, some 220, some 220] = 0
      ∧ calculateShimmer [some 220, some 220, some 220, some 220, some 220] = 0)
    ∧ 0 < calculateJitter examplePitch :=
  ⟨perturbation_spec.1 [some 220, some 225] (by with_unfolding_all decide),
   perturbation_spec.2.1 [some 220, some 220, some 220, some 220, some 220] 220
     (by with_unfolding_all decide),
   (perturbation_spec.2.2.1 examplePitch (by with_unfolding_all decide)
     ⟨220, by with_unfolding_all decide, 225, by with_unfolding_all decide,
       by norm_num⟩).1⟩

/-! ## Properties of the filler detector -/

theorem pickLongest_mem : ∀ (xs : List (List String)) (p : List String),
    pickLongest xs = some p → p ∈ xs
  | [], p, h => by simp [pickLongest] at h
  | x :: xs, p, h => by
    rw [pickLongest] at h
    cases hrec : pickLongest xs with
    | none =>
      rw [hrec] at h
      dsimp only at h
      exact (Option.some_inj.mp h) ▸ List.mem_cons_self x xs
    | some q =>
      rw [hrec] at h
      dsimp only at h
      by_cases hlen : q.length ≤ x.length
      · rw [if_pos hlen] at h
        exact (Option.some_inj.mp h) ▸ List.mem_cons_self x xs
      · rw [if_neg hlen] at h
        exact List.mem_cons_of_mem x (pickLongest_mem xs p ((Option.some_inj.mp h) ▸ hrec))

theorem pickLongest_maximal : ∀ (xs : List (List String)) (p : List String),
    pickLongest xs = some p → ∀ q ∈ xs, q.length ≤ p.length
  | [], p, h => by simp [pickLongest] at h
  | x :: xs, p, h => by
    rw [pickLongest] at h
    intro q hq
    cases hrec : pickLongest xs with
    | none =>
      rw [hrec] at h
      dsimp only at h
      rcases List.mem_cons.mp hq with rfl | hq'
      · rw [← Option.some_inj.mp h]
      · cases xs with
        | nil => simp at hq'
        | cons y ys =>
          exfalso
          rw [pickLongest] at hrec
          cases hr2 : pickLongest ys with
          | none =>
            rw [hr2] at hrec
            simp at hrec
          | some r =>
            rw [hr2] at hrec
            dsimp only at hrec
            by_cases hl : r.length ≤ y.length <;> simp [hl] at hrec
    | some r =>
      rw [hrec] at h
      dsimp only at h
      have hmax := pickLongest_maximal xs r hrec
      rcases List.mem_cons.mp hq with rfl | hq'
      · by_cases hl : r.length ≤ q.length
        · rw [if_pos hl] at h
          rw [← Option.some_inj.mp h]
        · rw [if_neg hl] at h
          rw [← Option.some_inj.mp h]
          omega
      · by_cases hl : r.length ≤ x.length
        · rw [if_pos hl] at h
          rw [← Option.some_inj.mp h]
          exact le_trans (hmax q hq') hl
        · rw [if_neg hl] at h
          rw [← Option.some_inj.mp h]
          exact hmax q hq'

theorem pickLongest_of_ne_nil : ∀ xs : List (List String), xs ≠ [] →
    ∃ p, pickLongest xs = some p
  | [], h => absurd rfl h
  | x :: xs, _ => by
    rw [pickLongest]
    cases pickLongest xs with
    | none => exact ⟨x, rfl⟩
    | some q =>
      by_cases hl : q.length ≤ x.length
      · exact ⟨x, by dsimp only; rw [if_pos hl]⟩
      · exact ⟨q, by dsimp only; rw [if_neg hl]⟩

theorem longestMatch_sound (lex : List (List String)) (ts p : List String)
    (h : longestMatch lex ts = some p) :
    p ∈ lex ∧ p ≠ [] ∧ phraseMatches p ts = true := by
  have hmem := pickLongest_mem _ _ h
  rw [List.mem_filter] at hmem
  refine ⟨hmem.1, ?_, ?_⟩
  · have := (Bool.and_eq_true _ _).mp hmem.2 |>.1
    intro hnil
    rw [hnil] at this
    simp at this
  · exact (Bool.and_eq_true _ _).mp hmem.2 |>.2

theorem longestMatch_complete (lex : List (List String)) (ts p : List String)
    (hp : p ∈ lex) (hne : p ≠ []) (hm : phraseMatches p ts = true) :
    ∃ r, longestMatch lex ts = some r ∧ p.length ≤ r.length := by
  have hmem : p ∈ lex.filter (fun q => !q.isEmpty && phraseMatches q ts) := by
    rw [List.mem_filter]
    refine ⟨hp, ?_⟩
    rw [Bool.and_eq_true]
    exact ⟨by cases p with | nil => exact absurd rfl hne | cons a l => rfl, hm⟩
  obtain ⟨r, hr⟩ := pickLongest_of_ne_nil _ (List.ne_nil_of_mem hmem)
  exact ⟨r, hr, pickLongest_maximal _ _ hr p hmem⟩

theorem scanFillers_sound (lex : List (List String)) :
    ∀ (fuel : ℕ) (ts p : List String), p ∈ scanFillers lex fuel ts →
      p ∈ lex ∧ ∃ s, s <:+ ts ∧ phraseMatches p s = true := by
  intro fuel
  induction fuel with
  | zero => intro ts p h; simp [scanFillers] at h
  | succ fuel ih =>
    intro ts p h
    match ts with
    | [] => simp [scanFillers] at h
    | t :: ts' =>
      rw [scanFillers] at h
      match hm : longestMatch lex (t :: ts') with
      | some q =>
        rw [hm] at h
        rcases List.mem_cons.mp h with rfl | h'
        · obtain ⟨hmem, _, hmatch⟩ := longestMatch_sound lex (t :: ts') p hm
          exact ⟨hmem, t :: ts', List.suffix_refl _, hmatch⟩
        · obtain ⟨hmem, s, hs, hmatch⟩ := ih _ p h'
          refine ⟨hmem, s, ?_, hmatch⟩
          exact hs.trans ((List.drop_suffix _ ts').trans (List.suffix_cons t ts'))
      | none =>
        rw [hm] at h
        obtain ⟨hmem, s, hs, hmatch⟩ := ih ts' p h
        exact ⟨hmem, s, hs.trans (List.suffix_cons t ts'), hmatch⟩

theorem detectFillers_sound (text f : String) (h : f ∈ detectFillers text) :
    ∃ p ∈ fillerLexicon, f = joinWords p
      ∧ ∃ s, s <:+ tokenize text ∧ phraseMatches p s = true := by
  rw [detectFillers, detectFillersWith, List.mem_dedup, List.mem_map] at h
  obtain ⟨p, hp, hjoin⟩ := h
  obtain ⟨hmem, s, hs, hmatch⟩ := scanFillers_sound fillerLexicon _ _ p hp
  exact ⟨p, hmem, hjoin.symm, s, hs, hmatch⟩

/-- C8: the filler scan is case-insensitive and reports each distinct
matched filler once, in lower-cased canonical form: the upper-cased
test text yields exactly the lower-cased fillers, empty or filler-free
text yields nothing, the result never holds duplicates, and every
reported filler is the canonical (lower-case) form of a lexicon
phrase. -/
theorem detectFillers_spec :
    detectFillers "UM, Uh, YOU KNOW, LIKE" = ["um", "uh", "you know", "like"]
    ∧ detectFillers "" = []
    ∧ detectFillers "This is a clean sentence without any filler words." = []
    ∧ (∀ text : String, (detectFillers text).Nodup)
    ∧ (∀ text f : String, f ∈ detectFillers text →
        ∃ p ∈ fillerLexicon, f = joinWords p) := by
  refine ⟨by decide, by decide, by decide, ?_, ?_⟩
  · intro text
    exact List.nodup_dedup _
  · intro text f h
    obtain ⟨p, hp, hjoin, _⟩ := detectFillers_sound text f h
    exact ⟨p, hp, hjoin⟩

/-- Witness for `detectFillers_spec`: the canonical-form clause applied
to the filler "um" found in the upper-cased test text. -/
theorem detectFillers_spec_witness :
    ∃ p ∈ fillerLexicon, "um" = joinWords p :=
  detectFillers_spec.2.2.2.2 "UM, Uh, YOU KNOW, LIKE" "um" (by decide)

/-- C9: at any scan position the longest matching lexicon phrase wins
(so a multi-word phrase beats any shorter entry it extends), matching
is on whole word tokens only (every reported filler matches token for
token at a word boundary of the tokenized text, never inside a larger
word), and the concrete cases: a text containing "i think that" reports
the long phrase and not the sub-phrase "i think", and "unlikely" does
not produce "like". -/
theorem detectFillers_longest_match :
    (∀ (lex : List (List String)) (ts p : List String), p ∈ lex → p ≠ [] →
        phraseMatches p ts = true →
      ∃ r, longestMatch lex ts = some r ∧ p.length ≤ r.length
        ∧ r ∈ lex ∧ phraseMatches r ts = true)
    ∧ (∀ text f : String, f ∈ detectFillers text →
        ∃ p ∈ fillerLexicon, f = joinWords p
          ∧ ∃ s, s <:+ tokenize text ∧ phraseMatches p s = true)
    ∧ detectFillers "I think that we should go" = ["i think that"]
    ∧ detectFillers "That was unlikely" = [] := by
  refine ⟨?_, detectFillers_sound, by decide, by decide⟩
  intro lex ts p hp hne hm
  obtain ⟨r, hr, hlen⟩ := longestMatch_complete lex ts p hp hne hm
  obtain ⟨hrmem, _, hrmatch⟩ := longestMatch_sound lex ts r hr
  exact ⟨r, hr, hlen, hrmem, hrmatch⟩

/-- Witness for `detectFillers_longest_match`: at the tokens of
"i think that we go", the two-token lexicon entry "i think" matches,
and the scan's chosen match is at least three tokens long. -/
theorem detectFillers_longest_match_witness :
    ∃ r, longestMatch fillerLexicon (tokenize "i think that we go") = some r
      ∧ (tokenize "i think").length ≤ r.length
      ∧ r ∈ fillerLexicon
      ∧ phraseMatches r (tokenize "i think that we go") = true :=
  detectFillers_longest_match.1 fillerLexicon (tokenize "i think that we go")
    (tokenize "i think") (by decide) (by decide) (by decide)

/-- C10: the orchestrator takes no pause threshold and no lexicon from
the caller; its fixed threshold is at most 1 second and its fixed
lexicon contains "um" and "you know"; on segments (0,2),(3,5) (gap
exactly 1) with the test text, whatever the other signal slices are,
the result reports exactly one pause and both fillers. -/
theorem analyzeSpeechQuality_builtin :
    analysisPauseThreshold ≤ 1
    ∧ tokenize "um" ∈ fillerLexicon
    ∧ tokenize "you know" ∈ fillerLexicon
    ∧ ∀ (words : ℕ) (d : ℚ) (pv av : List Sample),
        (analyzeSpeechQuality ⟨words, d, [⟨0, 2, "Hello world"⟩, ⟨3, 5, "How are you"⟩],
            "Um, hello world, you know, how are you?", pv, av⟩).pauses.length = 1
        ∧ "um" ∈ (analyzeSpeechQuality ⟨words, d,
            [⟨0, 2, "Hello world"⟩, ⟨3, 5, "How are you"⟩],
            "Um, hello world, you know, how are you?", pv, av⟩).fillers
        ∧ "you know" ∈ (analyzeSpeechQuality ⟨words, d,
            [⟨0, 2, "Hello world"⟩, ⟨3, 5, "How are you"⟩],
            "Um, hello world, you know, how are you?", pv, av⟩).fillers := by
  refine ⟨by norm_num [analysisPauseThreshold], by decide, by decide, ?_⟩
  intro words d pv av
  refine ⟨?_, ?_, ?_⟩
  · show (detectPauses [⟨0, 2, "Hello world"⟩, ⟨3, 5, "How are you"⟩]
      analysisPauseThreshold).length = 1
    with_unfolding_all decide
  · show "um" ∈ detectFillers "Um, hello world, you know, how are you?"
    decide
  · show "you know" ∈ detectFillers "Um, hello world, you know, how are you?"
    decide

end SpeechAnalysis
